import Mathlib

/- Verification of the CORS core of the cornice repository: a shallow embedding
of cornice/cors.py (preflight view, request validator, response filter) and
of the helper get_method, together with theorems settling the specification
claims about them.

Conventions of the embedding:
- HTTP header maps are association lists of (name, value) pairs; assignment
  replaces the value of an existing key in place and appends otherwise,
  mirroring an insertion-ordered dictionary.
- A request exposes its HTTP verb and a lookup from header name to optional
  value; an absent header is none.
- request.errors.add appends to an error list; each embedded view returns
  the list of errors it added (in order), the resulting response header map,
  and its return value (none embeds the implicit return of the source).
- Python truthiness of an optional string (none, or the empty string, are
  falsy) is modelled by the function truthy. -/

namespace Cornice

/- Section: Response header maps -/

/-- Response headers: an insertion-ordered association list. -/
abbrev Headers := List (String × String)

/-- Look a header up by exact name: the first pair with that key. -/
def getHeader : Headers → String → Option String
  | [], _ => none
  | p :: hs, k => if p.1 = k then some p.2 else getHeader hs k

/-- Header-presence test by exact name. -/
def hasHeader : Headers → String → Bool
  | [], _ => false
  | p :: hs, k => decide (p.1 = k) || hasHeader hs k

/-- Dictionary-style assignment: replace the value of an existing key in
place, append a new pair otherwise. -/
def setHeader (hs : Headers) (k v : String) : Headers :=
  if hasHeader hs k then
    hs.map (fun p => if p.1 = k then (k, v) else p)
  else hs ++ [(k, v)]

/- Section: Requests, errors, services -/

/-- Validation error, as passed to request.errors.add in the source:
a location, a name, and a human-readable description. -/
structure CorsError where
  location : String
  name : String
  description : String
  deriving DecidableEq, Repr

/-- The part of the request the CORS core reads: the HTTP verb and the
request header lookup (none models an absent header). -/
structure Request where
  method : String
  headers : String → Option String

/-- The policy accessors of a cornice service consumed by cors.py. -/
structure Service where
  cors_supported_headers : List String
  cors_supported_methods : List String
  cors_origins_for : String → List String
  cors_support_credentials : String → Bool
  cors_max_age_for : String → Option Int

/-- Python truthiness of an optional string: none and the empty string are
falsy, every other string is truthy. -/
def truthy : Option String → Bool
  | none => false
  | some s => !s.isEmpty

/-- Error recorded when a mandatory Origin header is missing. -/
def originMandatoryError : CorsError :=
  ⟨"header", "Origin", "this header is mandatory"⟩

/-- Error recorded when a mandatory Access-Control-Request-Method header is
missing. -/
def methodMandatoryError : CorsError :=
  ⟨"header", "Access-Control-Request-Method", "this header is mandatory"⟩

/-- Error recorded when the requested method is not a supported method. -/
def methodNotAllowedError : CorsError :=
  ⟨"header", "Access-Control-Request-Method", "Method not allowed"⟩

/-- Error recorded for one requested header that is not supported. -/
def headerNotAllowedError (h : String) : CorsError :=
  ⟨"header", "Access-Control-Request-Headers",
   "Header \"" ++ h ++ "\" not allowed"⟩

/-- Error recorded when the Origin value matches no configured pattern. -/
def originNotAllowedError (o : String) : CorsError :=
  ⟨"header", "Origin", o ++ " not allowed"⟩

/- Section: shell-style glob matching (fnmatch.fnmatchcase) -/

/-- Scan a character-class body for its closing bracket: returns the content
before the first unconsumed closing bracket and the remainder after it. -/
def findClose : List Char → Option (List Char × List Char)
  | [] => none
  | ']' :: rest => some ([], rest)
  | c :: rest => (findClose rest).map (fun pr => (c :: pr.1, pr.2))

/-- Split a pattern right after an opening bracket into the class content and
the rest of the pattern, following fnmatch.translate: a leading exclamation
mark negates, and a closing bracket placed first (possibly after the
exclamation mark) is part of the content; none when no closing bracket
follows, in which case the opening bracket is literal. -/
def splitBracket (ps : List Char) : Option (List Char × List Char) :=
  match ps with
  | '!' :: ']' :: rest => (findClose rest).map (fun pr => ('!' :: ']' :: pr.1, pr.2))
  | '!' :: rest => (findClose rest).map (fun pr => ('!' :: pr.1, pr.2))
  | ']' :: rest => (findClose rest).map (fun pr => (']' :: pr.1, pr.2))
  | rest => findClose rest

/-- Membership of a character in a class body: a dash between two characters
denotes an inclusive code-point range, any other character is literal (a
dash first or last is literal, as in a regular-expression class). -/
def classMatch : List Char → Char → Bool
  | [], _ => false
  | a :: '-' :: b :: rest, c =>
    (decide (a.toNat ≤ c.toNat) && decide (c.toNat ≤ b.toNat)) || classMatch rest c
  | a :: rest, c => a == c || classMatch rest c

/-- One token of a compiled glob pattern. -/
inductive GlobTok where
  | lit (c : Char)
  | anyChar
  | star
  | cls (content : List Char)
  deriving DecidableEq, Repr

/-- Fuel-indexed tokenizer of a glob pattern; the fuel only serves structural
termination and never runs out when it starts at the pattern length, since
every step consumes at least one pattern character. -/
def tokenizeF : Nat → List Char → List GlobTok
  | _, [] => []
  | 0, _ :: _ => []
  | fuel + 1, '*' :: ps => .star :: tokenizeF fuel ps
  | fuel + 1, '?' :: ps => .anyChar :: tokenizeF fuel ps
  | fuel + 1, '[' :: ps =>
    match splitBracket ps with
    | none => .lit '[' :: tokenizeF fuel ps
    | some (content, rest) => .cls content :: tokenizeF fuel rest
  | fuel + 1, c :: ps => .lit c :: tokenizeF fuel ps

/-- Compile a glob pattern into tokens. -/
def tokenize (p : List Char) : List GlobTok := tokenizeF p.length p

/-- All suffixes of a list, from the list itself down to the empty list. -/
def tails : List Char → List (List Char)
  | [] => [[]]
  | c :: cs => (c :: cs) :: tails cs

/-- Match a token list against a string, anchored at both ends; a star
matches an arbitrary run of characters (a dot-star under the multiline flags
fnmatch.translate emits, so newlines included), a question mark any single
character, a class per classMatch with a leading exclamation mark negating. -/
def tokMatch : List GlobTok → List Char → Bool
  | [], s => s.isEmpty
  | .star :: ps, s => (tails s).any (fun t => tokMatch ps t)
  | .anyChar :: ps, _ :: cs => tokMatch ps cs
  | .lit a :: ps, c :: cs => a == c && tokMatch ps cs
  | .cls content :: ps, c :: cs =>
    (match content with
     | '!' :: stuff => !classMatch stuff c
     | stuff => classMatch stuff c) && tokMatch ps cs
  | _ :: _, [] => false

/-- Embedding of fnmatch.fnmatchcase(name, pattern): case-sensitive
shell-style glob match of the whole name against the pattern. -/
def fnmatchcase (name pattern : String) : Bool :=
  tokMatch (tokenize pattern.toList) name.toList

/- Section: the three CORS entry points of cornice/cors.py -/

/-- Helper of splitWhitespace: walk the characters, accumulating the current
token in reverse; whitespace closes the current token (if nonempty). -/
def splitWsAux : List Char → List Char → List String
  | [], acc => if acc.isEmpty then [] else [String.mk acc.reverse]
  | c :: cs, acc =>
    if c.isWhitespace then
      (if acc.isEmpty then [] else [String.mk acc.reverse]) ++ splitWsAux cs []
    else splitWsAux cs (c :: acc)

/-- Python str.split() with no argument: the maximal nonempty runs of
non-whitespace characters, in order. -/
def splitWhitespace (s : String) : List String :=
  splitWsAux s.toList []

/-- The requested header names a preflight request announces: the value of
Access-Control-Request-Headers split on whitespace; an absent header (the
default of the source, an empty tuple) or a falsy value yields no names. -/
def requested_headers_of (request : Request) : List String :=
  match request.headers "Access-Control-Request-Headers" with
  | none => []
  | some s => if s.isEmpty then [] else splitWhitespace s

/-- Embedding of the body of get_cors_preflight_view (cors.py): given the
service policy, the request and the current response headers, returns the
errors added, the updated response headers, and the return value. -/
def preflight_view (service : Service) (request : Request) (resp : Headers) :
    List CorsError × Headers × Option String :=
  let origin := request.headers "Origin"
  let supported_headers := service.cors_supported_headers
  let errs : List CorsError :=
    if truthy origin then [] else [originMandatoryError]
  let requested_method := request.headers "Access-Control-Request-Method"
  let errs := errs ++
    (if truthy requested_method then ([] : List CorsError) else
      [methodMandatoryError])
  if !(truthy requested_method && truthy origin) then
    (errs, resp, none)
  else
    let requested_headers := requested_headers_of request
    let errs := errs ++
      (if service.cors_supported_methods.contains (requested_method.getD "") then
        ([] : List CorsError)
       else [methodNotAllowedError])
    let errs := errs ++
      (requested_headers.filter (fun h => !supported_headers.contains h)).map
        headerNotAllowedError
    let resp := setHeader resp "Access-Control-Allow-Headers"
      (String.intercalate ", " supported_headers)
    let resp := setHeader resp "Access-Control-Allow-Methods"
      (String.intercalate "," service.cors_supported_methods)
    let resp :=
      match service.cors_max_age_for (requested_method.getD "") with
      | some max_age => setHeader resp "Access-Control-Max-Age" (toString max_age)
      | none => resp
    (errs, resp, some "ok")

/-- Embedding of get_method (cors.py): the effective method of a CORS
operation. For an OPTIONS verb, take Access-Control-Request-Method when that
header is present (dict.get returns a present value even when it is the
empty string) and the verb itself otherwise; for any other verb, the verb. -/
def get_method (request : Request) : String :=
  if request.method == "OPTIONS" then
    (request.headers "Access-Control-Request-Method").getD request.method
  else request.method

/-- Embedding of the body of get_cors_validator (cors.py): returns the
errors added and the updated response headers. -/
def cors_validator (service : Service) (request : Request) (resp : Headers) :
    List CorsError × Headers :=
  let method := get_method request
  let origin := request.headers "Origin"
  if truthy origin then
    let o := origin.getD ""
    if !((service.cors_origins_for method).any (fun pat => fnmatchcase o pat)) then
      ([originNotAllowedError o], resp)
    else
      ([], setHeader resp "Access-Control-Allow-Origin" o)
  else ([], resp)

/-- Embedding of the body of get_cors_filter (cors.py). The source guards
the expose-headers branch with the expression: request.method is not
(the string literal OPTIONS), which in Python compares object identity, not
string value; identity of equal strings depends on interning, so the
embedding takes the outcome of that test as an oracle argument isNot.
Faithfulness constraint (pyIsNotSound below): distinct string values are
never the same object, so isNot must be true on them; on equal values both
outcomes occur in CPython (true for a runtime-built method string, false
for an interned one). -/
def cors_filter (isNot : String → String → Bool) (service : Service)
    (request : Request) (resp : Headers) : Headers :=
  let method := get_method request
  let resp :=
    if service.cors_support_credentials method &&
        !hasHeader resp "Access-Control-Allow-Credentials" then
      setHeader resp "Access-Control-Allow-Credentials" "true"
    else resp
  if isNot request.method "OPTIONS" then
    let supported_headers := service.cors_supported_headers
    if !supported_headers.isEmpty then
      setHeader resp "Access-Control-Expose-Headers"
        (String.intercalate ", " supported_headers)
    else resp
  else resp

/-- Admissibility of an identity-test oracle for cors_filter: Python
objects with distinct string values are never identical. -/
def pyIsNotSound (isNot : String → String → Bool) : Prop :=
  ∀ a b : String, a ≠ b → isNot a b = true

/- Section: lemmas about the header-map operations -/

theorem hasHeader_append (hs hs' : Headers) (k : String) :
    hasHeader (hs ++ hs') k = (hasHeader hs k || hasHeader hs' k) := by
  induction hs with
  | nil => simp [hasHeader]
  | cons p hs ih => simp [hasHeader, ih, Bool.or_assoc]

theorem map_replace_of_not_has (hs : Headers) (k v : String)
    (h : hasHeader hs k = false) :
    hs.map (fun p => if p.1 = k then (k, v) else p) = hs := by
  induction hs with
  | nil => simp
  | cons p hs ih =>
    simp only [hasHeader, Bool.or_eq_false_iff, decide_eq_false_iff_not] at h
    simp [h.1, ih h.2]

theorem getHeader_replace_self (hs : Headers) (k v : String) :
    getHeader (hs.map (fun p => if p.1 = k then (k, v) else p)) k =
      if hasHeader hs k then some v else none := by
  induction hs with
  | nil => simp [getHeader, hasHeader]
  | cons p hs ih =>
    by_cases hpk : p.1 = k
    · simp [getHeader, hasHeader, hpk]
    · simp [getHeader, hasHeader, hpk, ih]

theorem getHeader_replace_other (hs : Headers) (k k' v : String) (h : k' ≠ k) :
    getHeader (hs.map (fun p => if p.1 = k then (k, v) else p)) k' =
      getHeader hs k' := by
  induction hs with
  | nil => simp
  | cons p hs ih =>
    by_cases hpk : p.1 = k
    · simp [getHeader, hpk, Ne.symm h, ih]
    · simp [getHeader, hpk, ih]

theorem hasHeader_replace (hs : Headers) (k k' v : String) :
    hasHeader (hs.map (fun p => if p.1 = k then (k, v) else p)) k' =
      hasHeader hs k' := by
  induction hs with
  | nil => simp
  | cons p hs ih =>
    by_cases hpk : p.1 = k
    · simp [hasHeader, hpk, ih]
    · simp [hasHeader, hpk, ih]

theorem getHeader_append_self (hs : Headers) (k v : String)
    (hh : hasHeader hs k = false) :
    getHeader (hs ++ [(k, v)]) k = some v := by
  induction hs with
  | nil => simp [getHeader]
  | cons p hs ih =>
    simp only [hasHeader, Bool.or_eq_false_iff, decide_eq_false_iff_not] at hh
    simp [getHeader, hh.1, ih hh.2]

theorem getHeader_append_other (hs : Headers) (k k' v : String) (h : k' ≠ k) :
    getHeader (hs ++ [(k, v)]) k' = getHeader hs k' := by
  induction hs with
  | nil => simp [getHeader, Ne.symm h]
  | cons p hs ih => by_cases hpk : p.1 = k' <;> simp [getHeader, hpk, ih]

theorem getHeader_setHeader_self (hs : Headers) (k v : String) :
    getHeader (setHeader hs k v) k = some v := by
  unfold setHeader
  cases hh : hasHeader hs k with
  | true => simp [getHeader_replace_self, hh]
  | false => simp [getHeader_append_self hs k v hh]

theorem getHeader_setHeader_other (hs : Headers) (k k' v : String)
    (h : k' ≠ k) :
    getHeader (setHeader hs k v) k' = getHeader hs k' := by
  unfold setHeader
  cases hh : hasHeader hs k with
  | true => simp [getHeader_replace_other hs k k' v h]
  | false => simp [getHeader_append_other hs k k' v h]

theorem hasHeader_setHeader_self (hs : Headers) (k v : String) :
    hasHeader (setHeader hs k v) k = true := by
  unfold setHeader
  cases hh : hasHeader hs k with
  | true => simp [hasHeader_replace, hh]
  | false => simp [hasHeader_append, hasHeader]

theorem hasHeader_setHeader_other (hs : Headers) (k k' v : String)
    (h : k' ≠ k) :
    hasHeader (setHeader hs k v) k' = hasHeader hs k' := by
  unfold setHeader
  cases hh : hasHeader hs k with
  | true => simp [hasHeader_replace]
  | false => simp [hasHeader_append, hasHeader, Ne.symm h]

theorem setHeader_setHeader_self (hs : Headers) (k v : String) :
    setHeader (setHeader hs k v) k v = setHeader hs k v := by
  cases hh : hasHeader hs k with
  | true =>
    have e1 : setHeader hs k v = hs.map (fun p => if p.1 = k then (k, v) else p) := by
      unfold setHeader
      simp [hh]
    rw [e1]
    have hh2 : hasHeader (hs.map (fun p => if p.1 = k then (k, v) else p)) k = true := by
      rw [hasHeader_replace]
      exact hh
    unfold setHeader
    simp only [hh2, if_true, List.map_map]
    refine congrArg (fun g => List.map g hs) (funext fun p => ?_)
    by_cases hpk : p.1 = k <;> simp [Function.comp, hpk]
  | false =>
    have e1 : setHeader hs k v = hs ++ [(k, v)] := by
      unfold setHeader
      simp [hh]
    rw [e1]
    have hh2 : hasHeader (hs ++ [(k, v)]) k = true := by
      simp [hasHeader_append, hasHeader]
    unfold setHeader
    simp only [hh2, if_true]
    rw [List.map_append, map_replace_of_not_has hs k v hh]
    simp

/- Section: reduction lemmas for the embedded views -/

theorem truthy_some (o : String) (h : o ≠ "") : truthy (some o) = true := by
  have : o.isEmpty = false := by
    cases he : o.isEmpty with
    | true => exact absurd ((String.isEmpty_iff o).mp he) h
    | false => rfl
  simp [truthy, this]

/-- Reduction of the preflight view when both mandatory headers carry a
truthy value: all checks run, the three response headers are written in
order, and the view returns the success marker. -/
theorem preflight_view_eq_of_present (service : Service) (request : Request)
    (resp : Headers) (o m : String)
    (hO : request.headers "Origin" = some o) (hOne : o ≠ "")
    (hM : request.headers "Access-Control-Request-Method" = some m)
    (hMne : m ≠ "") :
    preflight_view service request resp =
      ((if service.cors_supported_methods.contains m then [] else
          [methodNotAllowedError]) ++
        ((requested_headers_of request).filter
            (fun h => !service.cors_supported_headers.contains h)).map
          headerNotAllowedError,
       (match service.cors_max_age_for m with
        | some max_age =>
          setHeader
            (setHeader
              (setHeader resp "Access-Control-Allow-Headers"
                (String.intercalate ", " service.cors_supported_headers))
              "Access-Control-Allow-Methods"
              (String.intercalate "," service.cors_supported_methods))
            "Access-Control-Max-Age" (toString max_age)
        | none =>
          setHeader
            (setHeader resp "Access-Control-Allow-Headers"
              (String.intercalate ", " service.cors_supported_headers))
            "Access-Control-Allow-Methods"
            (String.intercalate "," service.cors_supported_methods)),
       some "ok") := by
  simp [preflight_view, hO, hM, truthy_some o hOne, truthy_some m hMne]

theorem getHeader_set_expose_creds (hs : Headers) (v : String) :
    getHeader (setHeader hs "Access-Control-Expose-Headers" v)
        "Access-Control-Allow-Credentials" =
      getHeader hs "Access-Control-Allow-Credentials" :=
  getHeader_setHeader_other _ _ _ _ (by decide)

theorem hasHeader_set_expose_creds (hs : Headers) (v : String) :
    hasHeader (setHeader hs "Access-Control-Expose-Headers" v)
        "Access-Control-Allow-Credentials" =
      hasHeader hs "Access-Control-Allow-Credentials" :=
  hasHeader_setHeader_other _ _ _ _ (by decide)

/-- The filter writes Access-Control-Allow-Credentials exactly when the
policy supports credentials for the effective method and the header is not
already present; otherwise that header of the response is untouched. Holds
for every outcome of the identity test guarding the expose-headers branch. -/
theorem cors_filter_credentials (isNot : String → String → Bool)
    (service : Service) (request : Request) (resp : Headers) :
    getHeader (cors_filter isNot service request resp)
        "Access-Control-Allow-Credentials" =
      if service.cors_support_credentials (get_method request) &&
          !hasHeader resp "Access-Control-Allow-Credentials" then some "true"
      else getHeader resp "Access-Control-Allow-Credentials" := by
  unfold cors_filter
  cases hc : service.cors_support_credentials (get_method request) &&
      !hasHeader resp "Access-Control-Allow-Credentials" with
  | true =>
    cases hn : isNot request.method "OPTIONS" with
    | true =>
      cases hne : service.cors_supported_headers.isEmpty with
      | true => simp [hc, hn, hne, getHeader_setHeader_self]
      | false =>
        simp [hc, hn, hne, getHeader_set_expose_creds, getHeader_setHeader_self]
    | false => simp [hc, hn, getHeader_setHeader_self]
  | false =>
    cases hn : isNot request.method "OPTIONS" with
    | true =>
      cases hne : service.cors_supported_headers.isEmpty with
      | true => simp [hc, hn, hne]
      | false => simp [hc, hn, hne, getHeader_set_expose_creds]
    | false => simp [hc, hn]

/-- Applying the response filter twice yields the same headers as applying
it once, for every outcome of the identity test. -/
theorem cors_filter_idem (isNot : String → String → Bool)
    (service : Service) (request : Request) (resp : Headers) :
    cors_filter isNot service request (cors_filter isNot service request resp) =
      cors_filter isNot service request resp := by
  unfold cors_filter
  cases hn : isNot request.method "OPTIONS" with
  | false =>
    simp only [hn, if_false]
    cases hc : service.cors_support_credentials (get_method request) &&
        !hasHeader resp "Access-Control-Allow-Credentials" with
    | true => simp [hc, hasHeader_setHeader_self]
    | false => simp [hc]
  | true =>
    cases hne : service.cors_supported_headers.isEmpty with
    | true =>
      simp only [hn, hne, Bool.not_true, if_true, if_false]
      cases hc : service.cors_support_credentials (get_method request) &&
          !hasHeader resp "Access-Control-Allow-Credentials" with
      | true => simp [hc, hasHeader_setHeader_self]
      | false => simp [hc]
    | false =>
      cases hc : service.cors_support_credentials (get_method request) &&
          !hasHeader resp "Access-Control-Allow-Credentials" with
      | true =>
        simp [hn, hne, hc, hasHeader_set_expose_creds, hasHeader_setHeader_self,
          setHeader_setHeader_self]
      | false =>
        simp [hn, hne, hc, hasHeader_set_expose_creds, setHeader_setHeader_self]

/- Section: concrete fixtures, mirroring the squirel service of
tests/test_cors.py -/

/-- Policy of the squirel test service as the preflight path sees it. -/
def squirelService : Service where
  cors_supported_headers := ["X-My-Header"]
  cors_supported_methods := ["GET", "PUT", "HEAD"]
  cors_origins_for := fun _ => ["notmyidea.org"]
  cors_support_credentials := fun _ => true
  cors_max_age_for := fun _ => some 42

/-- An OPTIONS request carrying no headers at all. -/
def reqNoHeaders : Request where
  method := "OPTIONS"
  headers := fun _ => none

/-- A preflight request announcing method GET and two headers, with an
authorized origin. -/
def reqPreflightGet : Request where
  method := "OPTIONS"
  headers := fun k =>
    if k = "Origin" then some "notmyidea.org"
    else if k = "Access-Control-Request-Method" then some "GET"
    else if k = "Access-Control-Request-Headers" then
      some "X-My-Header X-Another-Header"
    else none

/-- A plain GET request from an unauthorized origin. -/
def reqOriginLolnet : Request where
  method := "GET"
  headers := fun k => if k = "Origin" then some "lolnet.org" else none

/-- A plain GET request without an Origin header. -/
def reqPlainGet : Request where
  method := "GET"
  headers := fun _ => none

/- Section: further specialized header lemmas used by the claim proofs -/

theorem getHeader_set_maxage_headers (hs : Headers) (v : String) :
    getHeader (setHeader hs "Access-Control-Max-Age" v)
        "Access-Control-Allow-Headers" =
      getHeader hs "Access-Control-Allow-Headers" :=
  getHeader_setHeader_other _ _ _ _ (by decide)

theorem getHeader_set_methods_headers (hs : Headers) (v : String) :
    getHeader (setHeader hs "Access-Control-Allow-Methods" v)
        "Access-Control-Allow-Headers" =
      getHeader hs "Access-Control-Allow-Headers" :=
  getHeader_setHeader_other _ _ _ _ (by decide)

theorem getHeader_set_maxage_methods (hs : Headers) (v : String) :
    getHeader (setHeader hs "Access-Control-Max-Age" v)
        "Access-Control-Allow-Methods" =
      getHeader hs "Access-Control-Allow-Methods" :=
  getHeader_setHeader_other _ _ _ _ (by decide)

theorem getHeader_set_methods_maxage (hs : Headers) (v : String) :
    getHeader (setHeader hs "Access-Control-Allow-Methods" v)
        "Access-Control-Max-Age" =
      getHeader hs "Access-Control-Max-Age" :=
  getHeader_setHeader_other _ _ _ _ (by decide)

theorem getHeader_set_headers_maxage (hs : Headers) (v : String) :
    getHeader (setHeader hs "Access-Control-Allow-Headers" v)
        "Access-Control-Max-Age" =
      getHeader hs "Access-Control-Max-Age" :=
  getHeader_setHeader_other _ _ _ _ (by decide)

theorem hasHeader_setHeader_mono (hs : Headers) (k k' v : String)
    (h : hasHeader hs k' = true) :
    hasHeader (setHeader hs k v) k' = true := by
  by_cases e : k' = k
  · subst e
    exact hasHeader_setHeader_self hs k' v
  · rw [hasHeader_setHeader_other hs k k' v e]
    exact h

/- Section: claim theorems -/

/-- Claim C1: for every request carrying a (truthy) Origin header value and
every policy, the request validator authorizes the origin exactly when the
value matches, case-sensitively and under shell-style glob semantics, at
least one configured pattern for the effective method; on no match it adds
exactly one origin-not-allowed error and leaves the response headers
untouched, and on a match it adds no error and sets
Access-Control-Allow-Origin to the literal origin value. In particular the
pattern *.example.com matches a.example.com and not example.com. -/
theorem claim_C1_origin_glob_authorization (service : Service)
    (request : Request) (resp : Headers) (o : String)
    (hO : request.headers "Origin" = some o) (hOne : o ≠ "") :
    (cors_validator service request resp =
      if (service.cors_origins_for (get_method request)).any
          (fun pat => fnmatchcase o pat) then
        ([], setHeader resp "Access-Control-Allow-Origin" o)
      else ([originNotAllowedError o], resp)) ∧
    fnmatchcase "a.example.com" "*.example.com" = true ∧
    fnmatchcase "example.com" "*.example.com" = false := by
  refine ⟨?_, by decide, by decide⟩
  cases hm : (service.cors_origins_for (get_method request)).any
      (fun pat => fnmatchcase o pat) with
  | true => simp [cors_validator, hO, truthy_some o hOne, hm]
  | false => simp [cors_validator, hO, truthy_some o hOne, hm]

theorem claim_C1_witness :
    cors_validator squirelService reqOriginLolnet [] =
      ([originNotAllowedError "lolnet.org"], []) := by
  have h := (claim_C1_origin_glob_authorization squirelService reqOriginLolnet
    [] "lolnet.org" rfl (by decide)).1
  rw [h]
  decide

/-- Claim C2: when the Origin header, the Access-Control-Request-Method
header, or both are absent from a preflight request, the preflight view
records exactly one mandatory-header error per absent header, leaves the
response headers unchanged, and returns none without running the remaining
checks. -/
theorem claim_C2_missing_mandatory_headers (service : Service)
    (request : Request) (resp : Headers) :
    (request.headers "Origin" = none →
      request.headers "Access-Control-Request-Method" = none →
      preflight_view service request resp =
        ([originMandatoryError, methodMandatoryError], resp, none)) ∧
    (request.headers "Origin" = none →
      truthy (request.headers "Access-Control-Request-Method") = true →
      preflight_view service request resp =
        ([originMandatoryError], resp, none)) ∧
    (truthy (request.headers "Origin") = true →
      request.headers "Access-Control-Request-Method" = none →
      preflight_view service request resp =
        ([methodMandatoryError], resp, none)) := by
  refine ⟨fun h1 h2 => ?_, fun h1 h2 => ?_, fun h1 h2 => ?_⟩
  · simp [preflight_view, h1, h2, truthy]
  · simp only [truthy] at h2
    simp [preflight_view, h1, h2, truthy]
  · simp only [truthy] at h1
    simp [preflight_view, h1, h2, truthy]

theorem claim_C2_witness :
    preflight_view squirelService reqNoHeaders [] =
      ([originMandatoryError, methodMandatoryError], [], none) :=
  (claim_C2_missing_mandatory_headers squirelService reqNoHeaders []).1 rfl rfl

/-- Claim C3: with both mandatory headers present, the preflight view
records exactly one method-not-allowed error precisely when the requested
method is not among the supported methods, and one header-not-allowed error
per requested header name missing (by case-sensitive comparison) from the
supported headers, in request order. -/
theorem claim_C3_preflight_method_header_errors (service : Service)
    (request : Request) (resp : Headers) (o m : String)
    (hO : request.headers "Origin" = some o) (hOne : o ≠ "")
    (hM : request.headers "Access-Control-Request-Method" = some m)
    (hMne : m ≠ "") :
    (preflight_view service request resp).1 =
      (if service.cors_supported_methods.contains m then [] else
        [methodNotAllowedError]) ++
      ((requested_headers_of request).filter
          (fun h => !service.cors_supported_headers.contains h)).map
        headerNotAllowedError := by
  rw [preflight_view_eq_of_present service request resp o m hO hOne hM hMne]

theorem claim_C3_witness :
    (preflight_view squirelService reqPreflightGet []).1 =
      [headerNotAllowedError "X-Another-Header"] := by
  rw [claim_C3_preflight_method_header_errors squirelService reqPreflightGet []
    "notmyidea.org" "GET" rfl (by decide) rfl (by decide)]
  decide

/-- Claim C4: with both mandatory headers present and regardless of the
recorded errors, the preflight view sets Access-Control-Allow-Headers to the
supported headers joined with comma-space, Access-Control-Allow-Methods to
the supported methods joined with a bare comma, and Access-Control-Max-Age
to the decimal string of the configured max age for the requested method
exactly when one is configured. -/
theorem claim_C4_preflight_response_headers (service : Service)
    (request : Request) (resp : Headers) (o m : String)
    (hO : request.headers "Origin" = some o) (hOne : o ≠ "")
    (hM : request.headers "Access-Control-Request-Method" = some m)
    (hMne : m ≠ "") :
    getHeader (preflight_view service request resp).2.1
        "Access-Control-Allow-Headers" =
      some (String.intercalate ", " service.cors_supported_headers) ∧
    getHeader (preflight_view service request resp).2.1
        "Access-Control-Allow-Methods" =
      some (String.intercalate "," service.cors_supported_methods) ∧
    getHeader (preflight_view service request resp).2.1
        "Access-Control-Max-Age" =
      (match service.cors_max_age_for m with
       | some max_age => some (toString max_age)
       | none => getHeader resp "Access-Control-Max-Age") := by
  rw [preflight_view_eq_of_present service request resp o m hO hOne hM hMne]
  cases hma : service.cors_max_age_for m with
  | some max_age =>
    exact ⟨(getHeader_set_maxage_headers _ _).trans
        ((getHeader_set_methods_headers _ _).trans
          (getHeader_setHeader_self _ _ _)),
      (getHeader_set_maxage_methods _ _).trans (getHeader_setHeader_self _ _ _),
      getHeader_setHeader_self _ _ _⟩
  | none =>
    exact ⟨(getHeader_set_methods_headers _ _).trans
        (getHeader_setHeader_self _ _ _),
      getHeader_setHeader_self _ _ _,
      (getHeader_set_methods_maxage _ _).trans
        (getHeader_set_headers_maxage _ _)⟩

theorem claim_C4_witness :
    getHeader (preflight_view squirelService reqPreflightGet []).2.1
        "Access-Control-Allow-Headers" = some "X-My-Header" ∧
    getHeader (preflight_view squirelService reqPreflightGet []).2.1
        "Access-Control-Allow-Methods" = some "GET,PUT,HEAD" ∧
    getHeader (preflight_view squirelService reqPreflightGet []).2.1
        "Access-Control-Max-Age" = some "42" := by
  have h := claim_C4_preflight_response_headers squirelService reqPreflightGet
    [] "notmyidea.org" "GET" rfl (by decide) rfl (by decide)
  exact ⟨h.1.trans (by decide), h.2.1.trans (by decide), h.2.2.trans (by decide)⟩

/-- Claim C5: with both mandatory headers present, the preflight view runs
all checks to completion and returns the success marker, whether or not
validation errors were recorded along the way. -/
theorem claim_C5_preflight_returns_ok (service : Service) (request : Request)
    (resp : Headers) (o m : String)
    (hO : request.headers "Origin" = some o) (hOne : o ≠ "")
    (hM : request.headers "Access-Control-Request-Method" = some m)
    (hMne : m ≠ "") :
    (preflight_view service request resp).2.2 = some "ok" := by
  rw [preflight_view_eq_of_present service request resp o m hO hOne hM hMne]

theorem claim_C5_witness :
    (preflight_view squirelService reqPreflightGet []).2.2 = some "ok" :=
  claim_C5_preflight_returns_ok squirelService reqPreflightGet []
    "notmyidea.org" "GET" rfl (by decide) rfl (by decide)

/-- Claim C9: with both mandatory headers present, the preflight view never
consults the configured origin patterns and never records an
origin-not-allowed error: every recorded error is the method-not-allowed
error or a header-not-allowed error, the result is unchanged under any
replacement of the per-method origin patterns, and the two allow headers
are set for authorized and unauthorized origins alike. -/
theorem claim_C9_preflight_ignores_origin_policy (service : Service)
    (request : Request) (resp : Headers) (o m : String)
    (hO : request.headers "Origin" = some o) (hOne : o ≠ "")
    (hM : request.headers "Access-Control-Request-Method" = some m)
    (hMne : m ≠ "") :
    (∀ e ∈ (preflight_view service request resp).1,
      (e.name = "Access-Control-Request-Method" ∧
        e.description = "Method not allowed") ∨
      e.name = "Access-Control-Request-Headers") ∧
    (∀ g : String → List String,
      preflight_view { service with cors_origins_for := g } request resp =
        preflight_view service request resp) ∧
    hasHeader (preflight_view service request resp).2.1
      "Access-Control-Allow-Headers" = true ∧
    hasHeader (preflight_view service request resp).2.1
      "Access-Control-Allow-Methods" = true := by
  refine ⟨?_, ?_, ?_, ?_⟩
  · intro e he
    rw [preflight_view_eq_of_present service request resp o m hO hOne hM hMne]
      at he
    simp only [List.mem_append, List.mem_map] at he
    rcases he with h | ⟨x, _, rfl⟩
    · left
      cases hcont : service.cors_supported_methods.contains m with
      | true =>
        rw [hcont] at h
        simp at h
      | false =>
        rw [hcont] at h
        simp at h
        subst h
        exact ⟨rfl, rfl⟩
    · right
      rfl
  · intro g
    cases service
    rfl
  · rw [preflight_view_eq_of_present service request resp o m hO hOne hM hMne]
    cases hma : service.cors_max_age_for m with
    | some max_age =>
      exact hasHeader_setHeader_mono _ _ _ _
        (hasHeader_setHeader_mono _ _ _ _ (hasHeader_setHeader_self _ _ _))
    | none =>
      exact hasHeader_setHeader_mono _ _ _ _ (hasHeader_setHeader_self _ _ _)
  · rw [preflight_view_eq_of_present service request resp o m hO hOne hM hMne]
    cases hma : service.cors_max_age_for m with
    | some max_age =>
      exact hasHeader_setHeader_mono _ _ _ _ (hasHeader_setHeader_self _ _ _)
    | none =>
      exact hasHeader_setHeader_self _ _ _

theorem claim_C9_witness :
    hasHeader (preflight_view squirelService reqPreflightGet []).2.1
        "Access-Control-Allow-Headers" = true ∧
    hasHeader (preflight_view squirelService reqPreflightGet []).2.1
        "Access-Control-Allow-Methods" = true := by
  have h := claim_C9_preflight_ignores_origin_policy squirelService
    reqPreflightGet [] "notmyidea.org" "GET" rfl (by decide) rfl (by decide)
  exact ⟨h.2.2.1, h.2.2.2⟩

/-- Claim C8: a request without an Origin header passes the validator with
no error recorded and with the response header map left exactly as it was. -/
theorem claim_C8_absent_origin_no_effect (service : Service)
    (request : Request) (resp : Headers)
    (h : request.headers "Origin" = none) :
    cors_validator service request resp = ([], resp) := by
  simp [cors_validator, h, truthy]

theorem claim_C8_witness :
    cors_validator squirelService reqPlainGet [] = ([], []) :=
  claim_C8_absent_origin_no_effect squirelService reqPlainGet [] rfl

/-- Claim C7: the response filter writes Access-Control-Allow-Credentials
(to the literal string true) exactly when the policy supports credentials
for the effective method and the response does not already carry that
header, and applying the filter twice yields the same headers as applying
it once; both hold for every outcome of the identity test guarding the
expose-headers branch. -/
theorem claim_C7_credentials_guard_idempotent (isNot : String → String → Bool)
    (service : Service) (request : Request) (resp : Headers) :
    (getHeader (cors_filter isNot service request resp)
        "Access-Control-Allow-Credentials" =
      if service.cors_support_credentials (get_method request) &&
          !hasHeader resp "Access-Control-Allow-Credentials" then some "true"
      else getHeader resp "Access-Control-Allow-Credentials") ∧
    cors_filter isNot service request (cors_filter isNot service request resp) =
      cors_filter isNot service request resp :=
  ⟨cors_filter_credentials isNot service request resp,
   cors_filter_idem isNot service request resp⟩

/-- Claim C10: the credentials branch of the response filter is not guarded
by the request verb: for every request, OPTIONS included, and every outcome
of the identity test of the expose-headers guard, credential support for
the effective method plus an absent Access-Control-Allow-Credentials header
makes the filter set that header to the literal string true. -/
theorem claim_C10_credentials_not_verb_guarded (isNot : String → String → Bool)
    (service : Service) (request : Request) (resp : Headers)
    (hcred : service.cors_support_credentials (get_method request) = true)
    (hno : hasHeader resp "Access-Control-Allow-Credentials" = false) :
    getHeader (cors_filter isNot service request resp)
      "Access-Control-Allow-Credentials" = some "true" := by
  rw [cors_filter_credentials]
  simp [hcred, hno]

theorem claim_C10_witness :
    getHeader (cors_filter (fun a b => !(a == b)) squirelService reqNoHeaders [])
      "Access-Control-Allow-Credentials" = some "true" :=
  claim_C10_credentials_not_verb_guarded (fun a b => !(a == b)) squirelService
    reqNoHeaders [] rfl rfl

/-- Claim C6, evaluation at the failing input: the source guards the
expose-headers branch of the response filter with a Python identity test
(the method object is not the literal OPTIONS string) rather than a value
comparison. A request whose method string equal to OPTIONS is a separate,
non-interned object, as happens for method strings parsed at runtime, makes
that test true, and the filter then sets Access-Control-Expose-Headers on an
OPTIONS request, contradicting the claim that it never does so. -/
theorem claim_C6_expose_set_for_options :
    getHeader (cors_filter (fun _ _ => true) squirelService reqNoHeaders [])
      "Access-Control-Expose-Headers" = some "X-My-Header" := by
  decide

/-- Counterpart of the preceding evaluation: with an interned method object,
where the identity test agrees with value comparison, the filter leaves
Access-Control-Expose-Headers unset on the same OPTIONS request, which is
the behavior the specification describes. The header written by the filter
on an OPTIONS request therefore depends on string interning, not only on the
request. -/
theorem cors_filter_interned_options_no_expose :
    getHeader (cors_filter (fun a b => !(a == b)) squirelService reqNoHeaders [])
      "Access-Control-Expose-Headers" = none := by
  decide

/-- Validation of the glob embedding: agreement with fnmatch.fnmatchcase of
the Python standard library on a battery of edge cases of its translate
rules (classes, ranges, literal dashes and brackets, negation, unclosed
brackets, case sensitivity, empty pattern and name). -/
theorem fnmatchcase_agrees_with_python_samples :
    fnmatchcase "abc" "a?c" = true ∧
    fnmatchcase "abc" "a[b-d]c" = true ∧
    fnmatchcase "aec" "a[!b-d]c" = true ∧
    fnmatchcase "abc" "a[!b-d]c" = false ∧
    fnmatchcase "a-c" "a[-b]c" = true ∧
    fnmatchcase "a-c" "a[b-]c" = true ∧
    fnmatchcase "a]c" "a[]]c" = true ∧
    fnmatchcase "a!c" "a[!]c" = false ∧
    fnmatchcase "a[!]c" "a[!]c" = true ∧
    fnmatchcase "a[c" "a[c" = true ∧
    fnmatchcase "a^c" "a[^b]c" = true ∧
    fnmatchcase "abc" "a[^b]c" = true ∧
    fnmatchcase "A.example.com" "*.example.com" = true ∧
    fnmatchcase "a.Example.com" "*.example.com" = false ∧
    fnmatchcase "a.b.example.com" "*.example.com" = true ∧
    fnmatchcase ".example.com" "*.example.com" = true ∧
    fnmatchcase "azc" "a[b-dx-z]c" = true ∧
    fnmatchcase "aXc" "a[b-dx-z]c" = false ∧
    fnmatchcase "" "*" = true ∧
    fnmatchcase "" "" = true ∧
    fnmatchcase "a" "" = false := by
  decide

end Cornice
